import Mathlib

/-
Verification of the botfont Telegram-bot document store (services/dbService.js)
and its broadcast worker (index.js).  The JSON document is modelled as a typed
record `Db`; JavaScript objects (string-keyed, insertion-ordered) are modelled
as association lists; ISO timestamp strings are modelled as abstract `Nat`
instants supplied explicitly by the caller.  `String.take n` models
JavaScript's `s.substring(0, n)`.
-/

set_option linter.unusedVariables false
set_option maxRecDepth 10000

namespace BotFont

/-- One entry of a user's `activity.downloads` list. -/
structure DownloadEntry where
  fontName : String
  date : Nat
deriving DecidableEq, Repr

/-- One entry of a user's `activity.uploads` list. -/
structure UploadEntry where
  fontName : String
  status : String
  date : Nat
  decisionDate : Option Nat
deriving DecidableEq, Repr

/-- The `activity` sub-record of a user. -/
structure Activity where
  downloads : List DownloadEntry
  uploads : List UploadEntry
deriving DecidableEq, Repr

/-- Incoming user data (`cleanUser` in the source).  `id` is the string form
of the Telegram id (`cleanUser.id.toString()`); an empty string models a falsy
id.  `idNum` records whether JavaScript's `isNaN(id)` is false for this id
(Telegram ids are numeric, but the store accepts any truthy id).
`firstName` stands in for the remaining opaque profile fields carried along
by the object spread `{...cleanUser}`. -/
structure CleanUser where
  id : String
  is_bot : Bool
  idNum : Bool
  firstName : String
deriving DecidableEq, Repr

/-- A stored user record: the spread profile fields plus the bookkeeping
fields maintained by `addOrUpdateUser`. -/
structure User where
  id : String
  is_bot : Bool
  idNum : Bool
  firstName : String
  lastSeen : Nat
  firstSeen : Nat
  activity : Activity
deriving DecidableEq, Repr

/-- A `bannedUsers` map entry `{reason, date}`. -/
structure BanEntry where
  reason : String
  date : Nat
deriving DecidableEq, Repr

/-- A `messageQueue` entry `{chatId, text, isBroadcast, timestamp}`. -/
structure QueueEntry where
  chatId : String
  text : String
  isBroadcast : Bool
  timestamp : Nat
deriving DecidableEq, Repr

/-- An entry of the broadcast record's capped `errors` list. -/
structure BroadcastError where
  chatId : String
  error : String
deriving DecidableEq, Repr

/-- The `broadcastResults` record. -/
structure BroadcastResults where
  message : String
  total : Nat
  sent : Nat
  failed : Nat
  startedAt : Nat
  completedAt : Option Nat
  errors : List BroadcastError
deriving DecidableEq, Repr

/-- The whole persisted JSON document (`db.data`). -/
structure Db where
  users : List (String × User)
  bannedUsers : List (String × BanEntry)
  messageQueue : List QueueEntry
  fileIdCache : List (String × String)
  broadcastResults : Option BroadcastResults
deriving DecidableEq, Repr

/-- `defaultData` from dbService.js. -/
def defaultData : Db :=
  { users := [], bannedUsers := [], messageQueue := [], fileIdCache := [],
    broadcastResults := none }

/-- Key lookup in a JavaScript-object-as-association-list (`obj[key]`). -/
def alGet {α : Type} : List (String × α) → String → Option α
  | [], _ => none
  | (k, v) :: rest, k0 => if k = k0 then some v else alGet rest k0

/-- Key assignment `obj[key] = v`: replace in place if present (JavaScript
objects keep the original key position), otherwise append in insertion
order. -/
def alSet {α : Type} : List (String × α) → String → α → List (String × α)
  | [], k, v => [(k, v)]
  | (k0, v0) :: rest, k, v =>
      if k0 = k then (k, v) :: rest else (k0, v0) :: alSet rest k v

/-- Key deletion `delete obj[key]`. -/
def alRemove {α : Type} : List (String × α) → String → List (String × α)
  | [], _ => []
  | (k0, v0) :: rest, k =>
      if k0 = k then alRemove rest k else (k0, v0) :: alRemove rest k

/-- In-place update of a list element at an index (models assignment to
`array[i]`); out-of-range indices leave the list unchanged. -/
def listModify {α : Type} (f : α → α) : Nat → List α → List α
  | _, [] => []
  | 0, a :: as => f a :: as
  | n + 1, a :: as => a :: listModify f n as

/-! ## Mutating accessors: the pure mutation applied inside the critical
section (the path in which the `db.write()` persist step succeeds).
Persist-failure behaviour is modelled separately by the `...E` wrappers. -/

/-- `addOrUpdateUser(cleanUser)`: validation short-circuit on a falsy id,
otherwise replace/insert the user record, preserving `firstSeen` and
`activity` of an existing record and stamping `lastSeen = now`. -/
def addOrUpdateUser (db : Db) (cleanUser : CleanUser) (now : Nat) : Db :=
  if cleanUser.id = "" then db
  else
    let newRec : User :=
      match alGet db.users cleanUser.id with
      | some existingRecord =>
          { id := cleanUser.id, is_bot := cleanUser.is_bot, idNum := cleanUser.idNum,
            firstName := cleanUser.firstName, lastSeen := now,
            firstSeen := existingRecord.firstSeen, activity := existingRecord.activity }
      | none =>
          { id := cleanUser.id, is_bot := cleanUser.is_bot, idNum := cleanUser.idNum,
            firstName := cleanUser.firstName, lastSeen := now,
            firstSeen := now, activity := { downloads := [], uploads := [] } }
    { db with users := alSet db.users cleanUser.id newRec }

/-- `getAllUsers()` = `Object.values(db.data.users)`. -/
def getAllUsers (db : Db) : List User := db.users.map Prod.snd

/-- `findUserById(userId)`. -/
def findUserById (db : Db) (userId : String) : Option User := alGet db.users userId

/-- `banUser(userId, reason)`: returns `false` (and writes nothing) if the id
is already banned, otherwise inserts `{reason: reason.substring(0,500), date}`
and returns `true`. -/
def banUser (db : Db) (userId : String) (reason : String) (now : Nat) : Db × Bool :=
  match alGet db.bannedUsers userId with
  | some _ => (db, false)
  | none =>
      ({ db with
         bannedUsers :=
           alSet db.bannedUsers userId { reason := reason.take 500, date := now } },
       true)

/-- `unbanUser(userId)`. -/
def unbanUser (db : Db) (userId : String) : Db × Bool :=
  match alGet db.bannedUsers userId with
  | none => (db, false)
  | some _ => ({ db with bannedUsers := alRemove db.bannedUsers userId }, true)

/-- `isUserBanned(userId)`. -/
def isUserBanned (db : Db) (userId : String) : Bool :=
  (alGet db.bannedUsers userId).isSome

/-- `logDownload(userId, fontName)`: no-op for an unknown user; otherwise
unshift the new entry and truncate to the latest 20.  (The source's
defensive re-creation of a missing `activity` structure is unrepresentable
in the typed model, where `activity` always exists.) -/
def logDownload (db : Db) (userId : String) (fontName : String) (now : Nat) : Db :=
  match alGet db.users userId with
  | none => db
  | some u =>
      let entry : DownloadEntry := { fontName := fontName.take 200, date := now }
      let u' : User :=
        { u with activity :=
            { u.activity with downloads := (entry :: u.activity.downloads).take 20 } }
      { db with users := alSet db.users userId u' }

/-- `logUpload(userId, fontName, status, decisionDate)`: update the first
matching pending upload in place, otherwise unshift a fresh entry; in both
cases truncate to the latest 20. -/
def logUpload (db : Db) (userId fontName status : String) (decisionDate : Option Nat)
    (now : Nat) : Db :=
  match alGet db.users userId with
  | none => db
  | some u =>
      let ups := u.activity.uploads
      let ups' :=
        match ups.findIdx? (fun e => e.fontName == fontName && e.status == "pending") with
        | some i =>
            listModify
              (fun (e : UploadEntry) =>
                { e with
                  status := status,
                  decisionDate := some (decisionDate.getD now) }) i ups
        | none =>
            ({ fontName := fontName.take 200, status := status, date := now,
               decisionDate := none } : UploadEntry) :: ups
      let u' : User := { u with activity := { u.activity with uploads := ups'.take 20 } }
      { db with users := alSet db.users userId u' }

/-- `addMessageToQueue(chatId, text, isBroadcast)`: validation short-circuit
on falsy text; if the queue holds 1000 or more entries, keep only the last
500 (`slice(-500)`) before appending the new entry with text truncated to
the 4000-character platform limit. -/
def addMessageToQueue (db : Db) (chatId : String) (text : String) (isBroadcast : Bool)
    (now : Nat) : Db :=
  if text.isEmpty then db
  else
    let mq := db.messageQueue
    let mq := if 1000 ≤ mq.length then mq.drop (mq.length - 500) else mq
    { db with messageQueue :=
        mq ++ [{ chatId := chatId, text := text.take 4000, isBroadcast := isBroadcast,
                 timestamp := now }] }

/-- `popAllMessagesFromQueue()`: copy the whole queue out and store an empty
queue, in one critical section; returns the popped batch and the new state. -/
def popAllMessagesFromQueue (db : Db) : List QueueEntry × Db :=
  (db.messageQueue, { db with messageQueue := [] })

/-- `startBroadcastLog(message, totalUsers)`: overwrite `broadcastResults`
with a fresh record.  (`Math.max(0, totalUsers)` is the identity on `Nat`.) -/
def startBroadcastLog (db : Db) (message : String) (totalUsers : Nat) (now : Nat) : Db :=
  { db with
    broadcastResults :=
      some { message := message.take 1000, total := totalUsers, sent := 0,
             failed := 0, startedAt := now, completedAt := none, errors := [] } }

/-- `logBroadcastResult(success, chatId, errorMessage)`: no-op when no
broadcast record exists; otherwise bump `sent` or `failed`, appending to
`errors` only while it holds fewer than 50 entries.  A missing or empty
(falsy) error message is recorded as the literal `"Unknown error"`. -/
def logBroadcastResult (db : Db) (success : Bool) (chatId : String)
    (errorMessage : Option String) : Db :=
  match db.broadcastResults with
  | none => db
  | some bc =>
      let msg : String :=
        match errorMessage with
        | some s => if s.isEmpty then "Unknown error" else s.take 200
        | none => "Unknown error"
      let bc' :=
        if success then { bc with sent := bc.sent + 1 }
        else
          { bc with
            failed := bc.failed + 1,
            errors :=
              if bc.errors.length < 50 then
                bc.errors ++ [{ chatId := chatId, error := msg }]
              else bc.errors }
      { db with broadcastResults := some bc' }

/-- `endBroadcastLog()`: no-op when no broadcast record exists; otherwise
stamp `completedAt`. -/
def endBroadcastLog (db : Db) (now : Nat) : Db :=
  match db.broadcastResults with
  | none => db
  | some bc => { db with broadcastResults := some { bc with completedAt := some now } }

/-- `getBroadcastStatus()`. -/
def getBroadcastStatus (db : Db) : Option BroadcastResults := db.broadcastResults

/-- `cacheFileId(fontName, fileId)`: when the cache holds 1000 or more keys,
drop the oldest 200 (`Object.keys(...).slice(0, 200)` in insertion order),
then assign. -/
def cacheFileId (db : Db) (fontName fileId : String) : Db :=
  let cache :=
    if 1000 ≤ db.fileIdCache.length then db.fileIdCache.drop 200 else db.fileIdCache
  { db with fileIdCache := alSet cache fontName fileId }

/-- `saveData(data)`: wholesale replacement of the document. -/
def saveData (data : Db) : Db := data

/-! ## Persist-failure behaviour.  Each mutating accessor awaits `db.write()`
after mutating the in-memory document.  The `...E` wrappers make the outcome
of that persist step explicit: `persistOk = false` models a failing
`db.write()`.  Accessors whose catch block rethrows surface the failure as
`Except.error`; accessors whose catch block only logs return normally
(`Except.ok`) with the already-updated in-memory document. -/

/-- The error surfaced when `db.write()` fails. -/
def persistErr : String := "persist failed"

/-- Outcome of the `await db.write()` persist step. -/
def persistW (persistOk : Bool) (db : Db) : Except String Db :=
  if persistOk then .ok db else .error persistErr

/-- `addOrUpdateUser` rethrows a persist failure; the validation
short-circuit returns before any write. -/
def addOrUpdateUserE (persistOk : Bool) (db : Db) (cleanUser : CleanUser)
    (now : Nat) : Except String Db :=
  if cleanUser.id = "" then .ok db
  else persistW persistOk (addOrUpdateUser db cleanUser now)

/-- `banUser` rethrows a persist failure; the already-banned branch returns
`false` before any write. -/
def banUserE (persistOk : Bool) (db : Db) (userId reason : String)
    (now : Nat) : Except String (Db × Bool) :=
  match alGet db.bannedUsers userId with
  | some _ => .ok (db, false)
  | none => (persistW persistOk (banUser db userId reason now).1).map (fun d => (d, true))

/-- `unbanUser` rethrows a persist failure; the not-banned branch returns
`false` before any write. -/
def unbanUserE (persistOk : Bool) (db : Db) (userId : String) :
    Except String (Db × Bool) :=
  match alGet db.bannedUsers userId with
  | none => .ok (db, false)
  | some _ => (persistW persistOk (unbanUser db userId).1).map (fun d => (d, true))

/-- `addMessageToQueue` rethrows a persist failure; the invalid-text
short-circuit returns before any write. -/
def addMessageToQueueE (persistOk : Bool) (db : Db) (chatId text : String)
    (isBroadcast : Bool) (now : Nat) : Except String Db :=
  if text.isEmpty then .ok db
  else persistW persistOk (addMessageToQueue db chatId text isBroadcast now)

/-- `saveData` rethrows a persist failure. -/
def saveDataE (persistOk : Bool) (data : Db) : Except String Db :=
  persistW persistOk data

/-- `logDownload`'s catch block only logs: a persist failure is swallowed and
the call returns normally with the mutated in-memory document. -/
def logDownloadE (persistOk : Bool) (db : Db) (userId fontName : String)
    (now : Nat) : Except String Db :=
  .ok (logDownload db userId fontName now)

/-- `logUpload`'s catch block only logs: persist failures are swallowed. -/
def logUploadE (persistOk : Bool) (db : Db) (userId fontName status : String)
    (decisionDate : Option Nat) (now : Nat) : Except String Db :=
  .ok (logUpload db userId fontName status decisionDate now)

/-- `cacheFileId`'s catch block only logs: persist failures are swallowed. -/
def cacheFileIdE (persistOk : Bool) (db : Db) (fontName fileId : String) :
    Except String Db :=
  .ok (cacheFileId db fontName fileId)

/-- `startBroadcastLog`'s catch block only logs: persist failures are
swallowed. -/
def startBroadcastLogE (persistOk : Bool) (db : Db) (message : String)
    (totalUsers : Nat) (now : Nat) : Except String Db :=
  .ok (startBroadcastLog db message totalUsers now)

/-- `logBroadcastResult`'s catch block only logs: persist failures are
swallowed. -/
def logBroadcastResultE (persistOk : Bool) (db : Db) (success : Bool)
    (chatId : String) (errorMessage : Option String) : Except String Db :=
  .ok (logBroadcastResult db success chatId errorMessage)

/-- `endBroadcastLog`'s catch block only logs: persist failures are
swallowed. -/
def endBroadcastLogE (persistOk : Bool) (db : Db) (now : Nat) : Except String Db :=
  .ok (endBroadcastLog db now)

/-! ## Broadcast worker (index.js `handleBroadcastMessage`).  The Telegram
transport (`bot.sendMessage`) is modelled by a stub `send : String → Bool`
(true = delivery succeeds) with error text `errMsg`.  The fixed inter-send
delay does not affect the document state and is not modelled. -/

/-- Recipient computation: `allUsers.filter(u => u.id.toString() !== ADMIN_ID
&& !u.is_bot && u.id)`.  Note the filter does not consult `bannedUsers`. -/
def broadcastTargets (adminId : String) (allUsers : List User) : List User :=
  allUsers.filter (fun u => u.id != adminId && !u.is_bot && u.id != "")

/-- Whether the per-recipient validity guard `if (!user.id || isNaN(user.id))
continue` lets the send attempt proceed. -/
def attempted (u : User) : Bool := !(u.id == "") && u.idNum

/-- The per-recipient delivery loop: skip invalid ids without recording an
outcome; otherwise attempt delivery and record the outcome with
`logBroadcastResult` (a success passes no error message; a failure passes
`error.message`). -/
def broadcastLoop (send : String → Bool) (errMsg : String → String) :
    List User → Db → Db
  | [], db => db
  | user :: rest, db =>
      if user.id == "" || !user.idNum then
        broadcastLoop send errMsg rest db
      else if send user.id then
        broadcastLoop send errMsg rest (logBroadcastResult db true user.id none)
      else
        broadcastLoop send errMsg rest
          (logBroadcastResult db false user.id (some (errMsg user.id)))

/-- `handleBroadcastMessage(bot, broadcastTask)` on the normal path: compute
targets, open a fresh broadcast record with `total = targets.length`, run the
delivery loop, then close the record. -/
def handleBroadcastMessage (adminId : String) (send : String → Bool)
    (errMsg : String → String) (db : Db) (text : String)
    (startTime endTime : Nat) : Db :=
  let targets := broadcastTargets adminId (getAllUsers db)
  let db1 := startBroadcastLog db text targets.length startTime
  let db2 := broadcastLoop send errMsg targets db1
  endBroadcastLog db2 endTime

/-! ## Cooperative-interleaving model of the mutex discipline.

The process is single threaded; concurrency is interleaving of asynchronous
callers at suspension points.  A mutating accessor suspends at
`await mutex.acquire()` and at `await db.write()`; between them it mutates
the shared in-memory document synchronously.  Task `i` therefore moves
through three phases: `start` (before the mutex grant), `mutated` (holding
the mutex, in-memory document updated, persist pending) and `done` (after
`db.write()` and `release()`).  The mutex (async-mutex, an external
collaborator) grants `acquire` only when no holder exists, which is the
`lock = none` premise of the `acquire` step. -/

/-- Phase of one mutating-accessor task. -/
inductive Phase where
  | start : Phase
  | mutated : Phase
  | done : Phase
deriving DecidableEq, Repr

/-- Global state of an interleaved execution of `n` mutating accessors:
the shared in-memory document `doc` (`db.data`), the persisted file `disk`,
the mutex holder, and each task's phase. -/
structure SchedState (n : Nat) where
  doc : Db
  disk : Db
  lock : Option (Fin n)
  phase : Fin n → Phase

/-- All tasks pending, mutex free, memory and file agree on `doc0`. -/
def initState (n : Nat) (doc0 : Db) : SchedState n :=
  { doc := doc0, disk := doc0, lock := none, phase := fun _ => Phase.start }

/-- One interleaving step.  `acquire i`: the mutex (free) is granted to task
`i`, which synchronously applies its mutation `fs i` to the in-memory
document and suspends awaiting `db.write()`.  `persist i`: task `i`'s
`db.write()` completes, copying the in-memory document to the file, and the
task releases the mutex. -/
inductive SchedStep (n : Nat) (fs : Fin n → Db → Db) :
    SchedState n → SchedState n → Prop where
  | acquire (s : SchedState n) (i : Fin n) :
      s.phase i = Phase.start → s.lock = none →
      SchedStep n fs s
        { doc := fs i s.doc, disk := s.disk, lock := some i,
          phase := Function.update s.phase i Phase.mutated }
  | persist (s : SchedState n) (i : Fin n) :
      s.phase i = Phase.mutated → s.lock = some i →
      SchedStep n fs s
        { doc := s.doc, disk := s.doc, lock := none,
          phase := Function.update s.phase i Phase.done }

/-- Sequential application of the mutations in the order given by `ord`. -/
def applyOrd (n : Nat) (fs : Fin n → Db → Db) (doc0 : Db) (ord : List (Fin n)) : Db :=
  ord.foldl (fun d i => fs i d) doc0

/-- Invariant carried through every interleaved execution: the tasks that
have left `start` form a duplicate-free order `ord`; the in-memory document
is the sequential application of exactly those mutations; and either the
mutex is free (file and memory agree, nobody mid-critical-section) or one
task holds it (it is the last acquirer, and the file lags by exactly its
pending mutation). -/
def SchedInv (n : Nat) (fs : Fin n → Db → Db) (doc0 : Db) (s : SchedState n) : Prop :=
  ∃ ord : List (Fin n), ord.Nodup ∧
    (∀ i, i ∈ ord ↔ s.phase i ≠ Phase.start) ∧
    s.doc = applyOrd n fs doc0 ord ∧
    ((s.lock = none ∧ s.disk = s.doc ∧ ∀ i, s.phase i ≠ Phase.mutated) ∨
     (∃ i ord0, s.lock = some i ∧ s.phase i = Phase.mutated ∧
        (∀ j, j ≠ i → s.phase j ≠ Phase.mutated) ∧
        ord = ord0 ++ [i] ∧ s.disk = applyOrd n fs doc0 ord0))

/-- Two concrete mutating accessors used to witness the serialization
theorem: task 0 inserts user `5`, task 1 bans user `9`. -/
def fsW : Fin 2 → Db → Db
  | ⟨0, _⟩ => fun d => addOrUpdateUser d { id := "5", is_bot := false, idNum := true, firstName := "a" } 1
  | ⟨1, _⟩ => fun d => (banUser d "9" "r" 2).1

/-- State after task 0 acquires the mutex and mutates. -/
def sW1 : SchedState 2 :=
  { doc := fsW 0 (initState 2 defaultData).doc,
    disk := (initState 2 defaultData).disk, lock := some 0,
    phase := Function.update (initState 2 defaultData).phase 0 Phase.mutated }

/-- State after task 0's write completes and it releases the mutex. -/
def sW2 : SchedState 2 :=
  { doc := sW1.doc, disk := sW1.doc, lock := none,
    phase := Function.update sW1.phase 0 Phase.done }

/-- State after task 1 acquires the mutex and mutates. -/
def sW3 : SchedState 2 :=
  { doc := fsW 1 sW2.doc, disk := sW2.disk, lock := some 1,
    phase := Function.update sW2.phase 1 Phase.mutated }

/-- State after task 1's write completes: the execution is finished. -/
def sW4 : SchedState 2 :=
  { doc := sW3.doc, disk := sW3.doc, lock := none,
    phase := Function.update sW3.phase 1 Phase.done }

/-! ## Concrete example documents used to witness the theorems below. -/

/-- A non-bot user with a numeric id and empty activity. -/
def mkUser (id : String) : User :=
  { id := id, is_bot := false, idNum := true, firstName := "u",
    lastSeen := 0, firstSeen := 0, activity := { downloads := [], uploads := [] } }

/-- A document with one banned user id `7`. -/
def dbBanned : Db :=
  { defaultData with
    users := [("1", mkUser "1")],
    bannedUsers := [("7", { reason := "r", date := 1 })] }

/-- Incoming profile data for user id `5`. -/
def cuEx : CleanUser := { id := "5", is_bot := false, idNum := true, firstName := "a" }

/-- Twenty existing download entries. -/
def dl20 : List DownloadEntry := List.replicate 20 { fontName := "f", date := 0 }

/-- A user whose download list is at the 20-entry cap. -/
def u20 : User :=
  { id := "2", is_bot := false, idNum := true, firstName := "b",
    lastSeen := 0, firstSeen := 0, activity := { downloads := dl20, uploads := [] } }

/-- A document containing `u20`. -/
def dbDl : Db := { defaultData with users := [("2", u20)] }

/-- A document whose message queue is exactly at the 1000-entry cap. -/
def qFull : Db :=
  { defaultData with
    messageQueue :=
      List.replicate 1000
        { chatId := "c", text := "t", isBroadcast := false, timestamp := 0 } }

/-- Three known users, of which user `3` is banned; the admin id is `99`. -/
def dbBroadcast : Db :=
  { defaultData with
    users := [("1", mkUser "1"), ("2", mkUser "2"), ("3", mkUser "3")],
    bannedUsers := [("3", { reason := "spam", date := 0 })] }

/-- A known user whose (truthy) id is not numeric: `isNaN(id)` holds. -/
def userNaN : User :=
  { id := "abc", is_bot := false, idNum := false, firstName := "x",
    lastSeen := 0, firstSeen := 0, activity := { downloads := [], uploads := [] } }

/-- A document whose only known user has a non-numeric id. -/
def dbNaN : Db := { defaultData with users := [("abc", userNaN)] }

/-- Two valid recipients, used with a stub transport failing for id `2`. -/
def dbTwo : Db :=
  { defaultData with users := [("1", mkUser "1"), ("2", mkUser "2")] }

/-! ## Association-list lemmas. -/

theorem alGet_alSet_self {α : Type} (l : List (String × α)) (k : String) (v : α) :
    alGet (alSet l k v) k = some v := by
  induction l with
  | nil => simp [alSet, alGet]
  | cons p rest ih =>
      obtain ⟨k0, v0⟩ := p
      by_cases h : k0 = k
      · subst h
        simp [alSet, alGet]
      · simp [alSet, alGet, h, ih]

theorem alSet_of_alGet_none {α : Type} (l : List (String × α)) (k : String) (v : α)
    (h : alGet l k = none) : alSet l k v = l ++ [(k, v)] := by
  induction l with
  | nil => simp [alSet]
  | cons p rest ih =>
      obtain ⟨k0, v0⟩ := p
      by_cases hk : k0 = k
      · subst hk
        simp [alGet] at h
      · simp [alGet, hk] at h
        simp [alSet, hk, ih h]

/-! ## Claim theorems. -/

/-- The loop's skip guard is the negation of `attempted`. -/
theorem skip_eq_not_attempted (u : User) :
    (u.id == "" || !u.idNum) = !(attempted u) := by
  unfold attempted
  cases h1 : u.id == "" <;> cases h2 : u.idNum <;> simp [h1, h2]

/-- Master invariant of the delivery loop: with a broadcast record present
whose error list length is `min failed 50`, the loop preserves `message`,
`total`, `startedAt` and `completedAt`, adds one `sent` per attempted
successful recipient, one `failed` per attempted failing recipient, and
maintains the error-cap invariant. -/
theorem broadcastLoop_spec (send : String → Bool) (errMsg : String → String) :
    ∀ (ts : List User) (db : Db) (bc : BroadcastResults),
      db.broadcastResults = some bc →
      bc.errors.length = min bc.failed 50 →
      ∃ bc', (broadcastLoop send errMsg ts db).broadcastResults = some bc' ∧
        bc'.message = bc.message ∧ bc'.total = bc.total ∧
        bc'.startedAt = bc.startedAt ∧ bc'.completedAt = bc.completedAt ∧
        bc'.sent = bc.sent + (ts.filter (fun u => attempted u && send u.id)).length ∧
        bc'.failed = bc.failed + (ts.filter (fun u => attempted u && !send u.id)).length ∧
        bc'.errors.length = min bc'.failed 50 := by
  intro ts
  induction ts with
  | nil =>
      intro db bc h hmin
      exact ⟨bc, by simpa [broadcastLoop] using h, rfl, rfl, rfl, rfl,
             by simp, by simp, hmin⟩
  | cons u rest ih =>
      intro db bc h hmin
      simp only [broadcastLoop, skip_eq_not_attempted]
      by_cases hatt : attempted u = true
      · simp only [hatt, Bool.not_true, Bool.false_eq_true, if_false]
        by_cases hsend : send u.id = true
        · simp only [hsend, if_true]
          have hlog : (logBroadcastResult db true u.id none).broadcastResults =
              some { bc with sent := bc.sent + 1 } := by
            simp [logBroadcastResult, h]
          obtain ⟨bc', hbc', hmsg, htot, hstart, hcomp, hsent, hfail, herr⟩ :=
            ih (logBroadcastResult db true u.id none) _ hlog hmin
          refine ⟨bc', hbc', hmsg, htot, hstart, hcomp, ?_, ?_, herr⟩
          · rw [hsent]
            simp only [List.filter_cons, hatt, hsend, Bool.and_self, if_true,
              List.length_cons]
            show bc.sent + 1 + _ = _
            omega
          · rw [hfail]
            simp only [List.filter_cons, hatt, hsend, Bool.not_true,
              Bool.and_false, Bool.false_eq_true, if_false]
        · simp only [hsend, Bool.false_eq_true, if_false]
          have hlog : (logBroadcastResult db false u.id
              (some (errMsg u.id))).broadcastResults =
              some { bc with
                     failed := bc.failed + 1,
                     errors :=
                       if bc.errors.length < 50 then
                         bc.errors ++
                           [{ chatId := u.id,
                              error := if (errMsg u.id).isEmpty then "Unknown error"
                                       else (errMsg u.id).take 200 }]
                       else bc.errors } := by
            simp [logBroadcastResult, h]
          have hmin2 :
              (if bc.errors.length < 50 then
                 bc.errors ++
                   [{ chatId := u.id,
                      error := if (errMsg u.id).isEmpty then "Unknown error"
                               else (errMsg u.id).take 200 }]
               else bc.errors).length = min (bc.failed + 1) 50 := by
            by_cases hlt : bc.errors.length < 50
            · rw [if_pos hlt, List.length_append]
              simp only [List.length_cons, List.length_nil]
              omega
            · rw [if_neg hlt]
              omega
          obtain ⟨bc', hbc', hmsg, htot, hstart, hcomp, hsent, hfail, herr⟩ :=
            ih (logBroadcastResult db false u.id (some (errMsg u.id))) _ hlog hmin2
          refine ⟨bc', hbc', hmsg, htot, hstart, hcomp, ?_, ?_, herr⟩
          · rw [hsent]
            simp only [List.filter_cons, hatt, hsend, Bool.and_false,
              Bool.false_eq_true, if_false]
          · rw [hfail]
            simp only [List.filter_cons, hatt, hsend, Bool.not_false,
              Bool.and_self, if_true, List.length_cons]
            show bc.failed + 1 + _ = _
            omega
      · have hatt' : attempted u = false := by
          cases hb : attempted u
          · rfl
          · exact absurd hb hatt
        simp only [hatt', Bool.not_false, if_true]
        obtain ⟨bc', hbc', hmsg, htot, hstart, hcomp, hsent, hfail, herr⟩ :=
          ih db bc h hmin
        refine ⟨bc', hbc', hmsg, htot, hstart, hcomp, ?_, ?_, herr⟩
        · rw [hsent]
          simp only [List.filter_cons, hatt', Bool.false_and, Bool.false_eq_true,
            if_false]
        · rw [hfail]
          simp only [List.filter_cons, hatt', Bool.false_and, Bool.false_eq_true,
            if_false]

/-- Splitting a list's length by a Boolean predicate. -/
theorem filter_length_split {α : Type} (p : α → Bool) (l : List α) :
    (l.filter p).length + (l.filter (fun a => !p a)).length = l.length := by
  induction l with
  | nil => rfl
  | cons a l ih =>
      by_cases hp : p a = true
      · simp only [List.filter_cons, hp, if_true, Bool.not_true, Bool.false_eq_true,
          if_false, List.length_cons]
        omega
      · have hp' : p a = false := by
          cases hpa : p a
          · rfl
          · exact absurd hpa hp
        simp only [List.filter_cons, hp', Bool.false_eq_true, if_false,
          Bool.not_false, if_true, List.length_cons]
        omega

/-- Closing the record stamps `completedAt` and changes nothing else. -/
theorem endBroadcastLog_some (db : Db) (bc : BroadcastResults) (t : Nat)
    (h : db.broadcastResults = some bc) :
    (endBroadcastLog db t).broadcastResults =
      some { bc with completedAt := some t } := by
  simp [endBroadcastLog, h]

/-- C1 counterexample: in `dbBroadcast` user `3` is banned, yet user `3` is
a broadcast recipient and the broadcast record's `total` is 3 (all known
users), not 2 — banned users are not excluded. -/
theorem broadcast_includes_banned_cex :
    alGet dbBroadcast.bannedUsers "3" = some { reason := "spam", date := 0 } ∧
    mkUser "3" ∈ broadcastTargets "99" (getAllUsers dbBroadcast) ∧
    ((handleBroadcastMessage "99" (fun _ => true) (fun _ => "e")
        dbBroadcast "hello" 1 2).broadcastResults.map BroadcastResults.total)
      = some 3 ∧
    ((handleBroadcastMessage "99" (fun _ => true) (fun _ => "e")
        dbBroadcast "hello" 1 2).broadcastResults.map BroadcastResults.sent)
      = some 3 ∧
    ((handleBroadcastMessage "99" (fun _ => true) (fun _ => "e")
        dbBroadcast "hello" 1 2).broadcastResults.map BroadcastResults.failed)
      = some 0 ∧
    ((handleBroadcastMessage "99" (fun _ => true) (fun _ => "e")
        dbBroadcast "hello" 1 2).broadcastResults.map BroadcastResults.completedAt)
      = some (some 2) := by
  refine ⟨rfl, by decide, by decide, by decide, by decide, by decide⟩

/-- C1 (amended): the recipient set is all known users minus the admin
identity, minus bot accounts, minus falsy ids — banned status plays no role
in membership — and the broadcast record's `total` counts exactly these
recipients. -/
theorem broadcastTargets_characterization (adminId : String) (db : Db) (u : User)
    (send : String → Bool) (errMsg : String → String) (text : String)
    (t1 t2 : Nat) :
    (u ∈ broadcastTargets adminId (getAllUsers db) ↔
      u ∈ getAllUsers db ∧ u.id ≠ adminId ∧ u.is_bot = false ∧ u.id ≠ "") ∧
    ∃ bc, (handleBroadcastMessage adminId send errMsg db text t1 t2).broadcastResults
        = some bc ∧
      bc.total = (broadcastTargets adminId (getAllUsers db)).length := by
  constructor
  · simp only [broadcastTargets, List.mem_filter, Bool.and_eq_true, bne_iff_ne,
      ne_eq, Bool.not_eq_true']
    tauto
  · obtain ⟨bc', hbc', hmsg, htot, hstart, hcomp, hsent, hfail, herr⟩ :=
      broadcastLoop_spec send errMsg (broadcastTargets adminId (getAllUsers db))
        (startBroadcastLog db text
          (broadcastTargets adminId (getAllUsers db)).length t1)
        { message := text.take 1000,
          total := (broadcastTargets adminId (getAllUsers db)).length,
          sent := 0, failed := 0, startedAt := t1, completedAt := none,
          errors := [] }
        rfl (by simp)
    refine ⟨{ bc' with completedAt := some t2 }, ?_, htot⟩
    exact endBroadcastLog_some _ bc' t2 hbc'

/-- C2 counterexample: `dbNaN`'s only known user has a truthy but
non-numeric id, so it is counted in the recipient list (`total = 1`) but the
loop's `isNaN` guard skips it without recording an outcome: with a transport
that never fails (`F = 0`), the final record has `sent + failed = 0 ≠ 1 = R`,
and `completedAt` is nevertheless set. -/
theorem broadcast_bookkeeping_cex :
    (broadcastTargets "99" (getAllUsers dbNaN)).length = 1 ∧
    ((handleBroadcastMessage "99" (fun _ => true) (fun _ => "e")
        dbNaN "hi" 1 2).broadcastResults.map
      (fun bc => bc.sent + bc.failed)) = some 0 ∧
    ((handleBroadcastMessage "99" (fun _ => true) (fun _ => "e")
        dbNaN "hi" 1 2).broadcastResults.map BroadcastResults.completedAt)
      = some (some 2) := by
  refine ⟨by decide, by decide, by decide⟩

/-- C2 (amended): over a recipient list in which every recipient has a
numeric id, the finished broadcast record satisfies `sent + failed = R`,
`failed = F` and `errors.length = min F 50` for the stub transport's failure
count `F`, `completedAt` is stamped at the end, and at every intermediate
point of the loop (any prefix of the recipients) `completedAt` is still
null. -/
theorem broadcast_bookkeeping (adminId text : String) (send : String → Bool)
    (errMsg : String → String) (db : Db) (t1 t2 : Nat)
    (hvalid : ∀ u ∈ broadcastTargets adminId (getAllUsers db), u.idNum = true) :
    (∃ bc, (handleBroadcastMessage adminId send errMsg db text t1 t2).broadcastResults
        = some bc ∧
      bc.sent + bc.failed = (broadcastTargets adminId (getAllUsers db)).length ∧
      bc.failed = ((broadcastTargets adminId (getAllUsers db)).filter
        (fun u => !send u.id)).length ∧
      bc.errors.length = min ((broadcastTargets adminId (getAllUsers db)).filter
        (fun u => !send u.id)).length 50 ∧
      bc.completedAt = some t2) ∧
    (∀ k, ∃ bc', (broadcastLoop send errMsg
        ((broadcastTargets adminId (getAllUsers db)).take k)
        (startBroadcastLog db text
          (broadcastTargets adminId (getAllUsers db)).length t1)).broadcastResults
        = some bc' ∧ bc'.completedAt = none) := by
  have hatt : ∀ u ∈ broadcastTargets adminId (getAllUsers db), attempted u = true := by
    intro u hu
    have hnum := hvalid u hu
    have hmem := List.mem_filter.mp hu
    have hid : (u.id != "") = true := by
      have hp := hmem.2
      simp only [Bool.and_eq_true] at hp
      exact hp.2
    unfold attempted
    rw [hnum]
    simpa [bne] using hid
  constructor
  · obtain ⟨bc', hbc', hmsg, htot, hstart, hcomp, hsent, hfail, herr⟩ :=
      broadcastLoop_spec send errMsg (broadcastTargets adminId (getAllUsers db))
        (startBroadcastLog db text
          (broadcastTargets adminId (getAllUsers db)).length t1)
        { message := text.take 1000,
          total := (broadcastTargets adminId (getAllUsers db)).length,
          sent := 0, failed := 0, startedAt := t1, completedAt := none,
          errors := [] }
        rfl (by simp)
    have hfilter1 :
        (broadcastTargets adminId (getAllUsers db)).filter
          (fun u => attempted u && send u.id) =
        (broadcastTargets adminId (getAllUsers db)).filter (fun u => send u.id) :=
      List.filter_congr (fun x hx => by rw [hatt x hx]; simp)
    have hfilter2 :
        (broadcastTargets adminId (getAllUsers db)).filter
          (fun u => attempted u && !send u.id) =
        (broadcastTargets adminId (getAllUsers db)).filter (fun u => !send u.id) :=
      List.filter_congr (fun x hx => by rw [hatt x hx]; simp)
    have hsum := filter_length_split (fun u => send u.id)
      (broadcastTargets adminId (getAllUsers db))
    have hsent' : bc'.sent = ((broadcastTargets adminId (getAllUsers db)).filter
        (fun u => send u.id)).length := by
      simpa [hfilter1] using hsent
    have hfail' : bc'.failed = ((broadcastTargets adminId (getAllUsers db)).filter
        (fun u => !send u.id)).length := by
      simpa [hfilter2] using hfail
    refine ⟨{ bc' with completedAt := some t2 }, ?_, ?_, ?_, ?_, rfl⟩
    · exact endBroadcastLog_some _ bc' t2 hbc'
    · show bc'.sent + bc'.failed = _
      rw [hsent', hfail']
      omega
    · exact hfail'
    · show bc'.errors.length = _
      rw [herr, hfail']
  · intro k
    obtain ⟨bc', hbc', hmsg, htot, hstart, hcomp, hsent, hfail, herr⟩ :=
      broadcastLoop_spec send errMsg
        ((broadcastTargets adminId (getAllUsers db)).take k)
        (startBroadcastLog db text
          (broadcastTargets adminId (getAllUsers db)).length t1)
        { message := text.take 1000,
          total := (broadcastTargets adminId (getAllUsers db)).length,
          sent := 0, failed := 0, startedAt := t1, completedAt := none,
          errors := [] }
        rfl (by simp)
    exact ⟨bc', hbc', hcomp⟩

/-- C2 witness: two valid recipients, the stub transport fails for id `2`:
the record ends with `sent + failed = 2`, `failed = 1`, one error entry and
`completedAt` stamped, and every loop prefix has `completedAt` null. -/
theorem broadcast_bookkeeping_witness :
    (∀ u ∈ broadcastTargets "99" (getAllUsers dbTwo), u.idNum = true) ∧
    ((∃ bc, (handleBroadcastMessage "99" (fun s => s == "1") (fun _ => "boom")
        dbTwo "hi" 1 2).broadcastResults = some bc ∧
      bc.sent + bc.failed = (broadcastTargets "99" (getAllUsers dbTwo)).length ∧
      bc.failed = ((broadcastTargets "99" (getAllUsers dbTwo)).filter
        (fun u => !(fun s => s == "1") u.id)).length ∧
      bc.errors.length = min ((broadcastTargets "99" (getAllUsers dbTwo)).filter
        (fun u => !(fun s => s == "1") u.id)).length 50 ∧
      bc.completedAt = some 2) ∧
    (∀ k, ∃ bc', (broadcastLoop (fun s => s == "1") (fun _ => "boom")
        ((broadcastTargets "99" (getAllUsers dbTwo)).take k)
        (startBroadcastLog dbTwo "hi"
          (broadcastTargets "99" (getAllUsers dbTwo)).length 1)).broadcastResults
        = some bc' ∧ bc'.completedAt = none)) :=
  ⟨by decide,
   broadcast_bookkeeping "99" "hi" (fun s => s == "1") (fun _ => "boom")
     dbTwo 1 2 (by decide)⟩

/-- C4: `popAllMessagesFromQueue` returns exactly the queued entries and
leaves the stored queue empty, so an immediately repeated drain returns the
empty sequence — no entry is returned by two drains. -/
theorem popAllMessagesFromQueue_drain (db : Db) :
    (popAllMessagesFromQueue db).1 = db.messageQueue ∧
    (popAllMessagesFromQueue db).2.messageQueue = [] ∧
    (popAllMessagesFromQueue (popAllMessagesFromQueue db).2).1 = [] :=
  ⟨rfl, rfl, rfl⟩

/-- C3: enqueueing onto a queue of length at most the 1000 cap keeps the
length at most 1000; when the pre-call length is at the cap the oldest half
is discarded before appending; a newly added entry is always the most recent
retained entry, never the one dropped. -/
theorem addMessageToQueue_bounded (db : Db) (chatId text : String)
    (isBroadcast : Bool) (now : Nat)
    (hlen : db.messageQueue.length ≤ 1000) :
    (addMessageToQueue db chatId text isBroadcast now).messageQueue.length ≤ 1000 ∧
    (text.isEmpty = false → db.messageQueue.length = 1000 →
      (addMessageToQueue db chatId text isBroadcast now).messageQueue =
        db.messageQueue.drop 500 ++
          [{ chatId := chatId, text := text.take 4000, isBroadcast := isBroadcast,
             timestamp := now }]) ∧
    (text.isEmpty = false →
      (addMessageToQueue db chatId text isBroadcast now).messageQueue.getLast? =
        some { chatId := chatId, text := text.take 4000, isBroadcast := isBroadcast,
               timestamp := now }) := by
  by_cases ht : text.isEmpty = true
  · refine ⟨?_, ?_, ?_⟩
    · simpa [addMessageToQueue, ht] using hlen
    · intro hf
      rw [ht] at hf
      exact absurd hf (by simp)
    · intro hf
      rw [ht] at hf
      exact absurd hf (by simp)
  · by_cases hcap : 1000 ≤ db.messageQueue.length
    · have h1000 : db.messageQueue.length = 1000 := le_antisymm hlen hcap
      refine ⟨?_, ?_, ?_⟩
      · simp [addMessageToQueue, ht, hcap, List.length_drop, h1000]
      · intro _ _
        simp [addMessageToQueue, ht, hcap, h1000]
      · intro _
        simp [addMessageToQueue, ht, hcap, List.getLast?_concat]
    · refine ⟨?_, ?_, ?_⟩
      · have : db.messageQueue.length < 1000 := lt_of_not_ge hcap
        simp [addMessageToQueue, ht, hcap]
        omega
      · intro _ h1000
        exact absurd h1000.ge hcap
      · intro _
        simp [addMessageToQueue, ht, hcap, List.getLast?_concat]

/-- C3 witness: at a queue of exactly 1000 entries, the enqueue keeps the
bound, trims the oldest half and retains the new entry last. -/
theorem addMessageToQueue_bounded_witness :
    qFull.messageQueue.length ≤ 1000 ∧
    ((addMessageToQueue qFull "9" "hello" false 7).messageQueue.length ≤ 1000 ∧
     (("hello" : String).isEmpty = false → qFull.messageQueue.length = 1000 →
       (addMessageToQueue qFull "9" "hello" false 7).messageQueue =
         qFull.messageQueue.drop 500 ++
           [{ chatId := "9", text := ("hello" : String).take 4000, isBroadcast := false,
              timestamp := 7 }]) ∧
     (("hello" : String).isEmpty = false →
       (addMessageToQueue qFull "9" "hello" false 7).messageQueue.getLast? =
         some { chatId := "9", text := ("hello" : String).take 4000, isBroadcast := false,
                timestamp := 7 })) :=
  ⟨by simp only [qFull, List.length_replicate]; exact le_refl 1000,
   addMessageToQueue_bounded qFull "9" "hello" false 7
     (by simp only [qFull, List.length_replicate]; exact le_refl 1000)⟩

/-- C5: banning an already-banned id returns `false` and leaves the existing
ban entry (reason and date) unchanged; banning a fresh id returns `true` and
appends exactly one new ban entry. -/
theorem banUser_idempotent (db : Db) (userId reason : String) (now : Nat) :
    (∀ e, alGet db.bannedUsers userId = some e →
      banUser db userId reason now = (db, false) ∧
      alGet (banUser db userId reason now).1.bannedUsers userId = some e) ∧
    (alGet db.bannedUsers userId = none →
      (banUser db userId reason now).2 = true ∧
      (banUser db userId reason now).1.bannedUsers =
        db.bannedUsers ++ [(userId, { reason := reason.take 500, date := now })]) := by
  constructor
  · intro e he
    simp [banUser, he]
  · intro hn
    simp [banUser, hn, alSet_of_alGet_none _ _ _ hn]

/-- C5 witness: banning the already-banned id `7` again is a no-op returning
`false`, with the original entry untouched. -/
theorem banUser_idempotent_witness :
    alGet dbBanned.bannedUsers "7" = some { reason := "r", date := 1 } ∧
    (banUser dbBanned "7" "again" 9 = (dbBanned, false) ∧
     alGet (banUser dbBanned "7" "again" 9).1.bannedUsers "7" =
       some { reason := "r", date := 1 }) :=
  ⟨rfl, (banUser_idempotent dbBanned "7" "again" 9).1 _ rfl⟩

/-- C6: the `addOrUpdateUser` call that first inserts a record sets
`firstSeen` (to the current time); every later call for the same id keeps
the stored `firstSeen` and refreshes `lastSeen`. -/
theorem addOrUpdateUser_firstSeen (db : Db) (cleanUser : CleanUser) (now : Nat) :
    (cleanUser.id ≠ "" → alGet db.users cleanUser.id = none →
      ∃ u, alGet (addOrUpdateUser db cleanUser now).users cleanUser.id = some u ∧
        u.firstSeen = now ∧ u.lastSeen = now) ∧
    (∀ old, cleanUser.id ≠ "" → alGet db.users cleanUser.id = some old →
      ∃ u, alGet (addOrUpdateUser db cleanUser now).users cleanUser.id = some u ∧
        u.firstSeen = old.firstSeen ∧ u.lastSeen = now) := by
  constructor
  · intro hid hn
    unfold addOrUpdateUser
    rw [if_neg hid]
    simp only [hn]
    exact ⟨_, alGet_alSet_self _ _ _, rfl, rfl⟩
  · intro old hid ho
    unfold addOrUpdateUser
    rw [if_neg hid]
    simp only [ho]
    exact ⟨_, alGet_alSet_self _ _ _, rfl, rfl⟩

/-- C6 witness: inserting the fresh id `5` at time 4 stamps both `firstSeen`
and `lastSeen` with 4. -/
theorem addOrUpdateUser_firstSeen_witness :
    cuEx.id ≠ "" ∧ alGet defaultData.users cuEx.id = none ∧
    (∃ u, alGet (addOrUpdateUser defaultData cuEx 4).users cuEx.id = some u ∧
      u.firstSeen = 4 ∧ u.lastSeen = 4) :=
  ⟨by decide, rfl, (addOrUpdateUser_firstSeen defaultData cuEx 4).1 (by decide) rfl⟩

/-- C7: a `logDownload` for a user already holding 20 download entries
leaves exactly 20 entries, the new entry first and the previously oldest
(20th) entry evicted. -/
theorem logDownload_ringBuffer (db : Db) (userId fontName : String) (now : Nat)
    (u : User) (hu : alGet db.users userId = some u)
    (hlen : u.activity.downloads.length = 20) :
    ∃ u', alGet (logDownload db userId fontName now).users userId = some u' ∧
      u'.activity.downloads =
        { fontName := fontName.take 200, date := now } ::
          u.activity.downloads.take 19 ∧
      u'.activity.downloads.length = 20 ∧
      u'.activity.downloads.head? =
        some { fontName := fontName.take 200, date := now } := by
  unfold logDownload
  simp only [hu]
  have htake :
      (({ fontName := fontName.take 200, date := now } : DownloadEntry) ::
          u.activity.downloads).take 20 =
        ({ fontName := fontName.take 200, date := now } : DownloadEntry) ::
          u.activity.downloads.take 19 := by
    rw [show (20 : Nat) = 19 + 1 from rfl, List.take_succ_cons]
  refine ⟨_, alGet_alSet_self _ _ _, htake, ?_, ?_⟩
  · show ((({ fontName := fontName.take 200, date := now } : DownloadEntry) ::
        u.activity.downloads).take 20).length = 20
    rw [htake]
    simp [List.length_take, hlen]
  · show ((({ fontName := fontName.take 200, date := now } : DownloadEntry) ::
        u.activity.downloads).take 20).head? =
      some { fontName := fontName.take 200, date := now }
    rw [htake]
    rfl

/-- C7 witness: user `2` holds 20 entries; logging font `g` at time 7 keeps
exactly 20 entries with the new entry first. -/
theorem logDownload_ringBuffer_witness :
    alGet dbDl.users "2" = some u20 ∧ u20.activity.downloads.length = 20 ∧
    (∃ u', alGet (logDownload dbDl "2" "g" 7).users "2" = some u' ∧
      u'.activity.downloads =
        { fontName := ("g" : String).take 200, date := 7 } ::
          u20.activity.downloads.take 19 ∧
      u'.activity.downloads.length = 20 ∧
      u'.activity.downloads.head? =
        some { fontName := ("g" : String).take 200, date := 7 }) :=
  ⟨rfl, by simp [u20, dl20],
   logDownload_ringBuffer dbDl "2" "g" 7 u20 rfl (by simp [u20, dl20])⟩

/-- C10: with no broadcast record present, `logBroadcastResult` and
`endBroadcastLog` return normally (no error, regardless of the persist
outcome) and leave the whole document unchanged. -/
theorem broadcastLog_noRecord_noop (db : Db) (success : Bool) (chatId : String)
    (errorMessage : Option String) (now : Nat) (persistOk : Bool)
    (h : db.broadcastResults = none) :
    logBroadcastResult db success chatId errorMessage = db ∧
    endBroadcastLog db now = db ∧
    logBroadcastResultE persistOk db success chatId errorMessage = .ok db ∧
    endBroadcastLogE persistOk db now = .ok db := by
  have h1 : logBroadcastResult db success chatId errorMessage = db := by
    simp [logBroadcastResult, h]
  have h2 : endBroadcastLog db now = db := by
    simp [endBroadcastLog, h]
  exact ⟨h1, h2, congrArg Except.ok h1, congrArg Except.ok h2⟩

/-- C10 witness: on the default document (no broadcast record) both calls
are exact no-ops, even with a failing persist step. -/
theorem broadcastLog_noRecord_noop_witness :
    defaultData.broadcastResults = none ∧
    (logBroadcastResult defaultData true "5" none = defaultData ∧
     endBroadcastLog defaultData 3 = defaultData ∧
     logBroadcastResultE false defaultData true "5" none = .ok defaultData ∧
     endBroadcastLogE false defaultData 3 = .ok defaultData) :=
  ⟨rfl, broadcastLog_noRecord_noop defaultData true "5" none 3 false rfl⟩

/-- C8 counterexample: `logDownload` (explicitly listed by the claim) does
not propagate a persist failure: with the write failing and the write path
reached (user `1` exists), the call still returns normally (`ok`), never an
error. -/
theorem persist_failure_cex :
    (alGet dbBanned.users "1").isSome = true ∧
    logDownloadE false dbBanned "1" "fontA" 3 =
      .ok (logDownload dbBanned "1" "fontA" 3) ∧
    ¬ ∃ e, logDownloadE false dbBanned "1" "fontA" 3 = .error e := by
  refine ⟨rfl, rfl, ?_⟩
  rintro ⟨e, he⟩
  simp [logDownloadE] at he

/-- C8 (amended): a failing persist step propagates as an error to the
immediate caller for `addOrUpdateUser`, `banUser`, `unbanUser`,
`addMessageToQueue` and `saveData` (whenever the write path is reached),
while `logDownload`, `logUpload`, `cacheFileId`, `startBroadcastLog`,
`logBroadcastResult` and `endBroadcastLog` swallow the failure and return
normally with the already-updated in-memory document. -/
theorem persist_failure_behaviour (db : Db) (cleanUser : CleanUser)
    (userId freshId bannedId reason chatId text fontName fileId status
      message : String)
    (isBroadcast success : Bool) (n tot : Nat) (dd : Option Nat)
    (eo : Option String) :
    (cleanUser.id ≠ "" → addOrUpdateUserE false db cleanUser n = .error persistErr) ∧
    (alGet db.bannedUsers freshId = none →
      banUserE false db freshId reason n = .error persistErr) ∧
    ((alGet db.bannedUsers bannedId).isSome = true →
      unbanUserE false db bannedId = .error persistErr) ∧
    (text.isEmpty = false →
      addMessageToQueueE false db chatId text isBroadcast n = .error persistErr) ∧
    saveDataE false db = .error persistErr ∧
    logDownloadE false db userId fontName n =
      .ok (logDownload db userId fontName n) ∧
    logUploadE false db userId fontName status dd n =
      .ok (logUpload db userId fontName status dd n) ∧
    cacheFileIdE false db fontName fileId =
      .ok (cacheFileId db fontName fileId) ∧
    startBroadcastLogE false db message tot n =
      .ok (startBroadcastLog db message tot n) ∧
    logBroadcastResultE false db success chatId eo =
      .ok (logBroadcastResult db success chatId eo) ∧
    endBroadcastLogE false db n = .ok (endBroadcastLog db n) := by
  refine ⟨?_, ?_, ?_, ?_, rfl, rfl, rfl, rfl, rfl, rfl, rfl⟩
  · intro h
    simp [addOrUpdateUserE, h, persistW]
  · intro h
    simp [banUserE, h, persistW, Except.map]
  · intro h
    obtain ⟨e, he⟩ := Option.isSome_iff_exists.mp h
    simp [unbanUserE, he, persistW, Except.map]
  · intro h
    simp [addMessageToQueueE, h, persistW]

/-- C8 witness: on `dbBanned` with the persist step failing, the five
rethrowing accessors error out (fresh id `9`, banned id `7`, nonempty text)
and the six swallowing accessors return normally. -/
theorem persist_failure_behaviour_witness :
    cuEx.id ≠ "" ∧ alGet dbBanned.bannedUsers "9" = none ∧
    (alGet dbBanned.bannedUsers "7").isSome = true ∧
    ("hi" : String).isEmpty = false ∧
    ((cuEx.id ≠ "" → addOrUpdateUserE false dbBanned cuEx 3 = .error persistErr) ∧
     (alGet dbBanned.bannedUsers "9" = none →
       banUserE false dbBanned "9" "why" 3 = .error persistErr) ∧
     ((alGet dbBanned.bannedUsers "7").isSome = true →
       unbanUserE false dbBanned "7" = .error persistErr) ∧
     (("hi" : String).isEmpty = false →
       addMessageToQueueE false dbBanned "c" "hi" false 3 = .error persistErr) ∧
     saveDataE false dbBanned = .error persistErr ∧
     logDownloadE false dbBanned "1" "fontB" 3 =
       .ok (logDownload dbBanned "1" "fontB" 3) ∧
     logUploadE false dbBanned "1" "fontB" "pending" none 3 =
       .ok (logUpload dbBanned "1" "fontB" "pending" none 3) ∧
     cacheFileIdE false dbBanned "fontB" "fid" =
       .ok (cacheFileId dbBanned "fontB" "fid") ∧
     startBroadcastLogE false dbBanned "m" 2 3 =
       .ok (startBroadcastLog dbBanned "m" 2 3) ∧
     logBroadcastResultE false dbBanned true "c" none =
       .ok (logBroadcastResult dbBanned true "c" none) ∧
     endBroadcastLogE false dbBanned 3 = .ok (endBroadcastLog dbBanned 3)) :=
  ⟨by decide, rfl, rfl, rfl,
   persist_failure_behaviour dbBanned cuEx "1" "9" "7" "why" "c" "hi" "fontB"
     "fid" "pending" "m" false true 3 2 none none⟩

/-- The invariant holds initially. -/
theorem schedInv_init (n : Nat) (fs : Fin n → Db → Db) (doc0 : Db) :
    SchedInv n fs doc0 (initState n doc0) := by
  refine ⟨[], List.nodup_nil, ?_, rfl, Or.inl ⟨rfl, rfl, ?_⟩⟩
  · intro i
    simp [initState]
  · intro i
    simp [initState]

/-- The invariant is preserved by every interleaving step. -/
theorem schedInv_step (n : Nat) (fs : Fin n → Db → Db) (doc0 : Db)
    (s s' : SchedState n) (hstep : SchedStep n fs s s')
    (hinv : SchedInv n fs doc0 s) : SchedInv n fs doc0 s' := by
  obtain ⟨ord, hnodup, hmem, hdoc, hrest⟩ := hinv
  cases hstep with
  | acquire i hph hlock =>
      rcases hrest with ⟨hl, hdisk, hnomut⟩ | ⟨j, ord0, hl, _, _, _, _⟩
      · have hni : i ∉ ord := fun hmem' => (hmem i).mp hmem' hph
        refine ⟨ord ++ [i], ?_, ?_, ?_, Or.inr ⟨i, ord, rfl, ?_, ?_, rfl, ?_⟩⟩
        · refine hnodup.append (List.nodup_singleton i) ?_
          intro a ha hb
          rw [List.mem_singleton] at hb
          subst hb
          exact hni ha
        · intro j
          by_cases hj : j = i
          · subst hj
            simp [Function.update_same]
          · simp [Function.update_noteq hj, hmem j, hj]
        · show fs i s.doc = _
          rw [hdoc]
          simp [applyOrd, List.foldl_append]
        · simp [Function.update_same]
        · intro j hj
          simp only [Function.update_noteq hj]
          exact hnomut j
        · show s.disk = _
          rw [hdisk, hdoc]
      · rw [hl] at hlock
        exact Option.noConfusion hlock
  | persist i hph hlock =>
      rcases hrest with ⟨hl, _, hnomut⟩ | ⟨j, ord0, hl, hjmut, hnomutj, hordeq, hdisk0⟩
      · exact absurd hph (hnomut i)
      · have hji : j = i := by
          rw [hl] at hlock
          exact Option.some.inj hlock
        subst hji
        refine ⟨ord, hnodup, ?_, hdoc, Or.inl ⟨rfl, rfl, ?_⟩⟩
        · intro k
          by_cases hk : k = j
          · subst hk
            simp only [Function.update_same]
            constructor
            · intro _
              simp
            · intro _
              exact (hmem k).mpr (by rw [hph]; simp)
          · simp [Function.update_noteq hk, hmem k]
        · intro k
          by_cases hk : k = j
          · subst hk
            simp [Function.update_same]
          · simp only [Function.update_noteq hk]
            exact hnomutj k hk

/-- The invariant holds at the end of any execution from the initial state. -/
theorem schedInv_steps (n : Nat) (fs : Fin n → Db → Db) (doc0 : Db)
    (s s' : SchedState n)
    (h : Relation.ReflTransGen (SchedStep n fs) s s')
    (hinv : SchedInv n fs doc0 s) : SchedInv n fs doc0 s' := by
  induction h with
  | refl => exact hinv
  | tail _ hstep ih => exact schedInv_step n fs doc0 _ _ hstep ih

/-- C9: any complete interleaved execution of `n` mutating accessors under
the mutex discipline ends with the persisted document equal to the
sequential application of the same `n` mutations in some order (the mutex
acquisition order) — no lost updates, and the file agrees with memory. -/
theorem mutex_serializable (n : Nat) (fs : Fin n → Db → Db) (doc0 : Db)
    (s : SchedState n)
    (hsteps : Relation.ReflTransGen (SchedStep n fs) (initState n doc0) s)
    (hfinal : ∀ i, s.phase i = Phase.done) :
    ∃ ord : List (Fin n), ord.Perm (List.finRange n) ∧
      s.disk = applyOrd n fs doc0 ord ∧ s.disk = s.doc := by
  obtain ⟨ord, hnodup, hmem, hdoc, hrest⟩ :=
    schedInv_steps n fs doc0 _ s hsteps (schedInv_init n fs doc0)
  rcases hrest with ⟨hl, hdisk, _⟩ | ⟨j, ord0, hl, hjmut, _, _, _⟩
  · refine ⟨ord, ?_, by rw [hdisk, hdoc], hdisk⟩
    refine (List.perm_ext_iff_of_nodup hnodup (List.nodup_finRange n)).mpr ?_
    intro a
    simp [hmem a, hfinal a, List.mem_finRange]
  · rw [hfinal j] at hjmut
    exact Phase.noConfusion hjmut

/-- The four-step execution through `sW1 … sW4` is a run of the scheduler. -/
theorem stepsW :
    Relation.ReflTransGen (SchedStep 2 fsW) (initState 2 defaultData) sW4 := by
  have h1 : SchedStep 2 fsW (initState 2 defaultData) sW1 :=
    SchedStep.acquire (initState 2 defaultData) 0 rfl rfl
  have h2 : SchedStep 2 fsW sW1 sW2 :=
    SchedStep.persist sW1 0 (by decide) rfl
  have h3 : SchedStep 2 fsW sW2 sW3 :=
    SchedStep.acquire sW2 1 (by decide) rfl
  have h4 : SchedStep 2 fsW sW3 sW4 :=
    SchedStep.persist sW3 1 (by decide) rfl
  exact .head h1 (.head h2 (.head h3 (.single h4)))

/-- C9 witness: the interleaved two-task execution ending in `sW4` is
complete, and its persisted document is a sequential application of both
mutations. -/
theorem mutex_serializable_witness :
    Relation.ReflTransGen (SchedStep 2 fsW) (initState 2 defaultData) sW4 ∧
    (∀ i, sW4.phase i = Phase.done) ∧
    (∃ ord : List (Fin 2), ord.Perm (List.finRange 2) ∧
      sW4.disk = applyOrd 2 fsW defaultData ord ∧ sW4.disk = sW4.doc) :=
  ⟨stepsW, by decide,
   mutex_serializable 2 fsW defaultData sW4 stepsW (by decide)⟩

end BotFont
